import Mathlib

/-!
# Bootstrap coordinator of the p2p node (`p2p/bootstrapper.go`)

A shallow embedding of the `bootstrapper` type: its constructor, the background
goroutine `tryStart`, the seed pass `connectToInitialPeerList`, the single dial
`connectToHost`, and the two controls `bootstrap()` (trigger) and `close()` (cancel).

The goroutine is embedded as a step function on an explicit state; an execution is a
list of events, each one either a call made by another goroutine (`trigger`, `cancel`)
or one step of the background goroutine (`task`), carrying what the outside world
answers at that step. Quantifying over all event lists covers every interleaving and
every dial outcome.
-/

namespace p2p

/-- Go `error` values are represented by their message. -/
abbrev Error := String

/-- Value of `time.Second`: durations are natural numbers of nanoseconds, as in
`time.Duration`. -/
def second : Nat := 1000000000

/-- Constant `protocolID` (bootstrapper.go:14). -/
def protocolID : String := "/erd/kad/9.9.9"

/-- Constant `routingTableRefreshInterval` (bootstrapper.go:15). -/
def routingTableRefreshInterval : Nat := second * 300

/-- Constant `retryReconnectionToInitialPeerListInterval` (bootstrapper.go:16). -/
def retryReconnectionToInitialPeerListInterval : Nat := second * 5

/-- Constant `timeToConnect` (bootstrapper.go:17). -/
def timeToConnect : Nat := second * 2

/-- The two address-parsing functions of the external libraries used by `connectToHost`:
`multiaddr.NewMultiaddr` and `peer.AddrInfoFromP2pAddr`. -/
structure Lib where
  newMultiaddr : String → Except Error String
  addrInfoFromP2pAddr : String → Except Error String

/-- What the remote end does with one dial when no deadline is set: the result of the
connection attempt and the time it needs. -/
structure Dial where
  err : Option Error
  time : Nat
deriving DecidableEq, Repr

/-- Result of `h.Connect(ctx, pi)` under a context with the given timeout: the host's dial is
deadline-bound, so it returns the remote result if that arrives before the deadline and a
deadline error at the deadline otherwise. The second component is the time spent. -/
def hostConnect (timeout : Nat) (d : Dial) : Option Error × Nat :=
  if d.time < timeout then (d.err, d.time) else (some "context deadline exceeded", timeout)

/-- Embedding of `connectToHost` (bootstrapper.go:99-114): both parsing steps return their
error at once; otherwise the host dials under a `timeToConnect` deadline. Returns the Go
`error` (`none` is `nil`) and the time the call took. -/
def connectToHost (lib : Lib) (address : String) (d : Dial) : Option Error × Nat :=
  match lib.newMultiaddr address with
  | .error e => (some e, 0)
  | .ok multiAddr =>
    match lib.addrInfoFromP2pAddr multiAddr with
    | .error e => (some e, 0)
    | .ok _ => hostConnect timeToConnect d

/-- The lines the coordinator prints, one constructor per `fmt.Printf` site. -/
inductive Log where
  | bootstrapError (err : Error)                 -- bootstrapper.go:57
  | noInitialPeers                               -- bootstrapper.go:62
  | endedEarly                                   -- bootstrapper.go:69
  | connected                                    -- bootstrapper.go:74
  | dialError (address : String) (err : Error)   -- bootstrapper.go:88
deriving DecidableEq, Repr

/-- The error `connectToInitialPeerList` returns when no address could be reached
(bootstrapper.go:96). -/
def errUnableToConnect : Error := "unable to connect to initial peers"

/-- What one complete pass over the seed list did: the addresses handed to `connectToHost`
in call order, the lines printed, the returned `error`, and the time spent. -/
structure PassResult where
  dialed : List String
  printed : List Log
  err : Option Error
  elapsed : Nat
deriving DecidableEq, Repr

/-- Embedding of `connectToInitialPeerList` (bootstrapper.go:84-97) as one uninterrupted run
of its `for ... range` loop. `answer i` is what the remote end does with the dial made in
iteration `i`; `i` is the index of the head of the remaining list. -/
def connectToInitialPeerList (lib : Lib) (answer : Nat → Dial) : Nat → List String → PassResult
  | _, [] => ⟨[], [], some errUnableToConnect, 0⟩
  | i, address :: rest =>
    match connectToHost lib address (answer i) with
    | (some e, t) =>
      let r := connectToInitialPeerList lib answer (i + 1) rest
      ⟨address :: r.dialed, Log.dialError address e :: r.printed, r.err, t + r.elapsed⟩
    | (none, t) => ⟨[address], [], none, t⟩

/-- Where the background goroutine `tryStart` stands. -/
inductive Pc where
  /-- created by `go instance.tryStart(ctx)` (bootstrapper.go:48), not yet run -/
  | spawned
  /-- blocked in the `select` (bootstrapper.go:67), or woken from it by `ctx.Done()` when
  the context is cancelled -/
  | parked
  /-- has received from `chStart` (bootstrapper.go:71) and is about to call
  `connectToInitialPeerList` -/
  | received
  /-- inside the loop of `connectToInitialPeerList`, with `connectToHost(address)` in
  flight; `rest` are the addresses the loop has still to visit after it -/
  | dialing (address : String) (rest : List String)
  /-- inside `time.Sleep` (bootstrapper.go:78) -/
  | sleeping
  /-- the body of `tryStart` has returned; the deferred function (bootstrapper.go:54-59)
  has not run yet -/
  | deferred
  /-- the deferred function has run: the goroutine is gone -/
  | ended
deriving DecidableEq, Repr

/-- The `bootstrapper` instance (bootstrapper.go:19-25) together with the state of its
context and of its background goroutine, and counters of what the goroutine did.
`chStart` is created unbuffered (`make(chan struct{})`, bootstrapper.go:30), so it never
holds a value: a send on it succeeds only by handing the value to a goroutine already
blocked in the receive. -/
structure bootstrapper where
  /-- field `initialPeerList` -/
  initialPeerList : List String
  /-- whether `cancelFunc` has been called, i.e. `ctx.Done()` is closed -/
  cancelled : Bool
  /-- position of the goroutine running `tryStart` -/
  pc : Pc
  /-- addresses for which `connectToHost` was called, in call order -/
  dialed : List String
  /-- number of calls of `connectToInitialPeerList` -/
  passes : Nat
  /-- number of calls of `time.Sleep` that have returned -/
  sleeps : Nat
  /-- number of calls of `kadDHT.Bootstrap` -/
  bootstrapCalls : Nat
  /-- lines printed so far -/
  printed : List Log
  /-- time the goroutine has spent in dials and sleeps -/
  clock : Nat
deriving DecidableEq, Repr

/-- State right after a successful `newBootstrapper`: context not cancelled, goroutine
spawned, nothing done yet. -/
def initial (initialPeerList : List String) : bootstrapper :=
  { initialPeerList := initialPeerList, cancelled := false, pc := .spawned, dialed := [],
    passes := 0, sleeps := 0, bootstrapCalls := 0, printed := [], clock := 0 }

/-- Result of `newBootstrapper`: the two Go return values and the number of `go` statements
executed. -/
structure NewResult where
  instance_ : Option bootstrapper
  err : Option Error
  spawned : Nat
deriving DecidableEq, Repr

/-- Embedding of `newBootstrapper` (bootstrapper.go:27-51). `dhtNew` is the result of the
external `dht.New` call, which receives the context, the host and three fixed options and
never sees the seed list. -/
def newBootstrapper (dhtNew : Except Error Unit) (initialPeerList : List String) : NewResult :=
  match dhtNew with
  | .error err => ⟨none, some err, 0⟩
  | .ok _ => ⟨some (initial initialPeerList), none, 1⟩

/-- Embedding of `bootstrap()` (bootstrapper.go:116-122): a `select` with a send on `chStart`
and a `default` branch. On the unbuffered channel the send branch is taken only when the
goroutine is blocked in its `select` and has not been woken by `ctx.Done()`; the value is
then handed over and the goroutine becomes runnable at bootstrapper.go:72. In every other
state the `default` branch is taken and nothing happens. -/
def bootstrap (b : bootstrapper) : bootstrapper :=
  match b.pc, b.cancelled with
  | .parked, false => { b with pc := .received }
  | _, _ => b

/-- Embedding of `close()` (bootstrapper.go:124-126): calls `cancelFunc`, which closes
`ctx.Done()` and does not wait for anything. -/
def close (b : bootstrapper) : bootstrapper :=
  { b with cancelled := true }

/-- Entry of the `select` at the top of the `for` loop (bootstrapper.go:66-70): with
`ctx.Done()` closed the first case is taken, the line is printed and `tryStart` returns;
otherwise no case is ready (no sender ever waits on `chStart`) and the goroutine blocks. -/
def selectEntry (b : bootstrapper) : bootstrapper :=
  if b.cancelled then { b with pc := .deferred, printed := b.printed ++ [Log.endedEarly] }
  else { b with pc := .parked }

/-- Head of the `for ... range` loop of `connectToInitialPeerList` on the addresses still
to visit (bootstrapper.go:85-86, 96): with none left the function returns its error and
`tryStart` goes to `time.Sleep`; otherwise `connectToHost` is called on the next one. -/
def loopHead (b : bootstrapper) : List String → bootstrapper
  | [] => { b with pc := .sleeping }
  | address :: rest =>
    { b with pc := .dialing address rest, dialed := b.dialed ++ [address] }

/-- One step of the goroutine running `tryStart` (bootstrapper.go:53-81). `d` is what the
remote end does with the dial in flight and `bootstrapErr` what `kadDHT.Bootstrap` returns;
each is read only by the step that makes the corresponding call. -/
def tryStart (lib : Lib) (b : bootstrapper) (d : Dial) (bootstrapErr : Option Error) :
    bootstrapper :=
  match b.pc with
  | .spawned =>
    -- bootstrapper.go:61-64, then the first `select`
    if b.initialPeerList.length = 0 then
      { b with pc := .deferred, printed := b.printed ++ [Log.noInitialPeers] }
    else selectEntry b
  | .parked =>
    -- blocked until a case is ready; `ctx.Done()` is the only one that can be
    if b.cancelled then selectEntry b else b
  | .received =>
    -- bootstrapper.go:72: the pass begins
    loopHead { b with passes := b.passes + 1 } b.initialPeerList
  | .dialing address rest =>
    -- bootstrapper.go:86-93: `connectToHost` returns
    match connectToHost lib address d with
    | (some e, t) =>
      loopHead { b with printed := b.printed ++ [Log.dialError address e],
                        clock := b.clock + t } rest
    | (none, t) =>
      -- bootstrapper.go:73-76
      { b with pc := .deferred, printed := b.printed ++ [Log.connected], clock := b.clock + t }
  | .sleeping =>
    -- bootstrapper.go:78 returns, back to the `select`
    selectEntry { b with sleeps := b.sleeps + 1,
                         clock := b.clock + retryReconnectionToInitialPeerListInterval }
  | .deferred =>
    -- bootstrapper.go:54-59
    match bootstrapErr with
    | some e =>
      { b with pc := .ended, bootstrapCalls := b.bootstrapCalls + 1,
               printed := b.printed ++ [Log.bootstrapError e] }
    | none => { b with pc := .ended, bootstrapCalls := b.bootstrapCalls + 1 }
  | .ended => b

/-- One event of an execution. -/
inductive Ev where
  /-- some goroutine calls `bootstrap()` -/
  | trigger
  /-- some goroutine calls `close()` -/
  | cancel
  /-- the background goroutine takes its next step -/
  | task (d : Dial) (bootstrapErr : Option Error)
deriving DecidableEq, Repr

/-- Effect of one event. -/
def step (lib : Lib) (b : bootstrapper) : Ev → bootstrapper
  | .trigger => bootstrap b
  | .cancel => close b
  | .task d bootstrapErr => tryStart lib b d bootstrapErr

/-- Effect of a list of events, from left to right. -/
def run (lib : Lib) (b : bootstrapper) (evs : List Ev) : bootstrapper :=
  evs.foldl (step lib) b

/-- Whether an event is a step of the background goroutine. -/
def Ev.isTask : Ev → Bool
  | .task _ _ => true
  | _ => false

/-- Whether an event is a `bootstrap()` call. -/
def Ev.isTrigger : Ev → Bool
  | .trigger => true
  | _ => false

/-- Whether an event is a `close()` call. -/
def Ev.isCancel : Ev → Bool
  | .cancel => true
  | _ => false

/-- Number of steps of the background goroutine in a list of events. -/
def taskSteps (evs : List Ev) : Nat := evs.countP Ev.isTask

/-- A parsing library that accepts every string except the empty one. -/
def sampleLib : Lib :=
  { newMultiaddr := fun a => if a = "" then .error "empty multiaddr" else .ok a
    addrInfoFromP2pAddr := fun a => .ok a }

/-- A dial that the remote end accepts after one millisecond. -/
def dialOk : Dial := ⟨none, 1000000⟩

/-- A dial that the remote end refuses after one millisecond. -/
def dialRefused : Dial := ⟨some "connection refused", 1000000⟩

/-- A dial that the remote end never answers. -/
def dialSilent : Dial := ⟨none, second * 3600⟩

/-- Result of the dial made in iteration `j` of a pass over `l` that starts counting its
iterations at `i`. -/
def dialResult (lib : Lib) (answer : Nat → Dial) (i : Nat) (l : List String) (j : Nat) :
    Option Error :=
  (connectToHost lib (l.getD j "") (answer (i + j))).1

/-- The routing table's `Bootstrap` has been called once if the goroutine has ended and
not at all otherwise. -/
def BootstrapAtEnd (b : bootstrapper) : Prop :=
  b.bootstrapCalls = if b.pc = Pc.ended then 1 else 0

/-- Number of dials the pass in progress can still begin. -/
def dialsLeft (b : bootstrapper) : Nat :=
  match b.pc with
  | .received => b.initialPeerList.length
  | .dialing _ rest => rest.length
  | _ => 0

/-- Number of `time.Sleep` calls that can still return before the goroutine is next at its
`select`. -/
def sleepsLeft (b : bootstrapper) : Nat :=
  match b.pc with
  | .received => 1
  | .dialing _ _ => 1
  | .sleeping => 1
  | _ => 0

/-- Bound of the time the goroutine can still spend in dials and in `time.Sleep` before it
is next at its `select`: `timeToConnect` for the dial in flight and for each address still to
visit, and one retry interval. -/
def timeLeft (b : bootstrapper) : Nat :=
  match b.pc with
  | .received =>
    b.initialPeerList.length * timeToConnect + retryReconnectionToInitialPeerListInterval
  | .dialing _ rest =>
    (rest.length + 1) * timeToConnect + retryReconnectionToInitialPeerListInterval
  | .sleeping => retryReconnectionToInitialPeerListInterval
  | _ => 0

/-- Bound of the number of steps a goroutine whose context is cancelled takes before it has
ended. -/
def stepsLeft (b : bootstrapper) : Nat :=
  match b.pc with
  | .spawned => 2
  | .parked => 2
  | .received => b.initialPeerList.length + 3
  | .dialing _ rest => rest.length + 3
  | .sleeping => 2
  | .deferred => 1
  | .ended => 0

/-- The dial in flight, if any, is on an address of the seed list and the addresses still to
visit are fewer than the list has. -/
def DialingWithinList (b : bootstrapper) : Prop :=
  ∀ a rest, b.pc = Pc.dialing a rest → rest.length < b.initialPeerList.length

/-- Number of dials in flight: one while `connectToHost` runs, none otherwise. -/
def inFlight (b : bootstrapper) : Nat :=
  match b.pc with
  | .dialing _ _ => 1
  | _ => 0

/-- Seed list of three addresses used in the examples. -/
def threeSeeds : List String := ["/ip4/10.0.0.1/tcp/1/p2p/A", "/ip4/10.0.0.2/tcp/1/p2p/B",
  "/ip4/10.0.0.3/tcp/1/p2p/C"]

/-- Execution in which the goroutine reaches its `select`, receives one trigger and starts a
pass: the dial of the first address of `threeSeeds` is in flight. -/
def duringFirstDial : bootstrapper :=
  run sampleLib (initial threeSeeds) [.task dialSilent none, .trigger, .task dialSilent none]

/-- Six goroutine steps during which no remote end ever answers. -/
def silentSteps : List Ev := List.replicate 6 (.task dialSilent none)

/-- What the goroutine has done so far: everything an event can change except the
cancellation flag and the position of the goroutine. -/
def done (b : bootstrapper) : List String × Nat × Nat × Nat × List Log × Nat :=
  (b.dialed, b.passes, b.sleeps, b.bootstrapCalls, b.printed, b.clock)

/-- Two goroutine steps, enough for a goroutine that has nothing to wait for. -/
def twoSteps : List Ev := [.task dialOk none, .task dialOk none]

/-- Seed list of one address used in the examples. -/
def oneSeed : List String := ["/ip4/10.0.0.1/tcp/1/p2p/A"]

/-- Seed list whose entries are not addresses at all. -/
def malformedSeeds : List String := ["", "not a multiaddr"]

/-- The events of `n` consecutive steps of the goroutine with nothing in between, the dial
of iteration `i`, `i + 1`, ... answered as `answer` says. -/
def passSteps (answer : Nat → Dial) : Nat → Nat → List Ev
  | _, 0 => []
  | i, n + 1 => Ev.task (answer i) none :: passSteps answer (i + 1) n

/-- State reached from `b` when the goroutine starts a pass and runs it without interruption
and every dial of the pass fails: one step to enter `connectToInitialPeerList` and one per
address of the seed list. -/
def afterFailedPass (lib : Lib) (answer : Nat → Dial) (b : bootstrapper) : bootstrapper :=
  run lib b (Ev.task (answer 0) none :: passSteps answer 0 b.initialPeerList.length)

/-- Execution in which the goroutine reaches its `select` and receives one trigger: it is
about to start a pass over `threeSeeds`. -/
def startReceived : bootstrapper :=
  run sampleLib (initial threeSeeds) [.task dialSilent none, .trigger]

/-- The goroutine is neither in a pass nor about to start one. -/
def Idle (b : bootstrapper) : Prop :=
  b.pc = Pc.sleeping ∨ b.pc = Pc.parked ∨ b.pc = Pc.deferred ∨ b.pc = Pc.ended

/-- Remote ends that refuse every dial. -/
def allRefused : Nat → Dial := fun _ => dialRefused

/-- Remote ends of which the second accepts and the others refuse. -/
def secondAccepts : Nat → Dial := fun i => if i = 1 then dialOk else dialRefused

/-! ## Basic facts about executions -/

theorem run_nil (lib : Lib) (b : bootstrapper) : run lib b [] = b := rfl

theorem run_cons (lib : Lib) (b : bootstrapper) (e : Ev) (evs : List Ev) :
    run lib b (e :: evs) = run lib (step lib b e) evs := rfl

theorem run_append (lib : Lib) (b : bootstrapper) (evs evs' : List Ev) :
    run lib b (evs ++ evs') = run lib (run lib b evs) evs' := by
  simp [run, List.foldl_append]

/-- A property that holds of a state and is kept by every event holds after any list of
events. -/
theorem run_invariant (lib : Lib) (P : bootstrapper → Prop)
    (hstep : ∀ b e, P b → P (step lib b e)) (b : bootstrapper) (hb : P b) (evs : List Ev) :
    P (run lib b evs) := by
  induction evs generalizing b with
  | nil => exact hb
  | cons e evs ih => exact ih (step lib b e) (hstep b e hb)

theorem taskSteps_nil : taskSteps [] = 0 := rfl

theorem taskSteps_cons (e : Ev) (evs : List Ev) :
    taskSteps (e :: evs) = taskSteps evs + (if e.isTask then 1 else 0) := by
  simp [taskSteps, List.countP_cons]

/-- The seed list is never changed. -/
theorem step_initialPeerList (lib : Lib) (b : bootstrapper) (e : Ev) :
    (step lib b e).initialPeerList = b.initialPeerList := by
  rcases b with ⟨l, c, pc, dl, ps, sl, bc, pr, ck⟩
  cases e with
  | trigger => cases pc <;> cases c <;> rfl
  | cancel => rfl
  | task d be =>
    cases pc with
    | dialing a rest =>
      rcases h : connectToHost lib a d with ⟨_ | e, t⟩
      · simp [step, tryStart, h]
      · cases rest <;> simp [step, tryStart, h, loopHead]
    | received => cases l <;> simp [step, tryStart, loopHead]
    | deferred => cases be <;> simp [step, tryStart]
    | _ => cases c <;> simp [step, tryStart, selectEntry] <;> split <;> simp

theorem run_initialPeerList (lib : Lib) (b : bootstrapper) (evs : List Ev) :
    (run lib b evs).initialPeerList = b.initialPeerList :=
  run_invariant lib (fun x => x.initialPeerList = b.initialPeerList)
    (fun x e hx => (step_initialPeerList lib x e).trans hx) b rfl evs

/-- Cancellation is never undone. -/
theorem step_cancelled (lib : Lib) (b : bootstrapper) (e : Ev) (hc : b.cancelled = true) :
    (step lib b e).cancelled = true := by
  rcases b with ⟨l, c, pc, dl, ps, sl, bc, pr, ck⟩
  simp only at hc
  subst hc
  cases e with
  | trigger => cases pc <;> rfl
  | cancel => rfl
  | task d be =>
    cases pc with
    | dialing a rest =>
      rcases h : connectToHost lib a d with ⟨_ | e, t⟩
      · simp [step, tryStart, h]
      · cases rest <;> simp [step, tryStart, h, loopHead]
    | received => cases l <;> simp [step, tryStart, loopHead]
    | deferred => cases be <;> simp [step, tryStart]
    | _ => simp [step, tryStart, selectEntry] <;> split <;> simp

theorem run_cancelled (lib : Lib) (b : bootstrapper) (evs : List Ev)
    (hc : b.cancelled = true) : (run lib b evs).cancelled = true :=
  run_invariant lib (fun x => x.cancelled = true) (fun x e hx => step_cancelled lib x e hx)
    b hc evs

theorem step_bootstrapAtEnd (lib : Lib) (b : bootstrapper) (e : Ev) (hb : BootstrapAtEnd b) :
    BootstrapAtEnd (step lib b e) := by
  rcases b with ⟨l, c, pc, dl, ps, sl, bc, pr, ck⟩
  cases e with
  | trigger => cases pc <;> cases c <;> simp_all [step, bootstrap, BootstrapAtEnd]
  | cancel => simpa [step, close, BootstrapAtEnd] using hb
  | task d be =>
    cases pc with
    | dialing a rest =>
      rcases h : connectToHost lib a d with ⟨_ | e, t⟩
      · simp_all [step, tryStart, BootstrapAtEnd]
      · cases rest <;> simp_all [step, tryStart, loopHead, BootstrapAtEnd]
    | received => cases l <;> simp_all [step, tryStart, loopHead, BootstrapAtEnd]
    | deferred => cases be <;> simp_all [step, tryStart, BootstrapAtEnd]
    | ended => simpa [step, tryStart, BootstrapAtEnd] using hb
    | _ =>
      cases c <;> simp_all [step, tryStart, selectEntry, BootstrapAtEnd] <;> split <;> simp

/-! ## One pass over the seed list -/

theorem pass_all_fail (lib : Lib) (answer : Nat → Dial) (i : Nat) (l : List String)
    (hfail : ∀ j, j < l.length → dialResult lib answer i l j ≠ none) :
    (connectToInitialPeerList lib answer i l).dialed = l
    ∧ (connectToInitialPeerList lib answer i l).err = some errUnableToConnect := by
  induction l generalizing i with
  | nil => simp [connectToInitialPeerList]
  | cons a rest ih =>
    have h0 := hfail 0 (by simp)
    simp only [dialResult, List.getD_cons_zero, Nat.add_zero] at h0
    have hrest : ∀ j, j < rest.length → dialResult lib answer (i + 1) rest j ≠ none := by
      intro j hj
      have := hfail (j + 1) (by simpa using hj)
      simpa [dialResult, Nat.add_assoc, Nat.add_comm 1 j] using this
    rcases h : connectToHost lib a (answer i) with ⟨_ | e, t⟩
    · rw [h] at h0; exact absurd rfl h0
    · have := ih (i + 1) hrest
      simp [connectToInitialPeerList, h, this.1, this.2]

theorem pass_first_success (lib : Lib) (answer : Nat → Dial) (i : Nat) (l : List String)
    (k : Nat) (hk : k < l.length)
    (hfail : ∀ j, j < k → dialResult lib answer i l j ≠ none)
    (hok : dialResult lib answer i l k = none) :
    (connectToInitialPeerList lib answer i l).dialed = l.take (k + 1)
    ∧ (connectToInitialPeerList lib answer i l).err = none := by
  induction l generalizing i k with
  | nil => simp at hk
  | cons a rest ih =>
    cases k with
    | zero =>
      simp only [dialResult, List.getD_cons_zero, Nat.add_zero] at hok
      rcases h : connectToHost lib a (answer i) with ⟨_ | e, t⟩
      · simp [connectToInitialPeerList, h]
      · rw [h] at hok; simp at hok
    | succ k =>
      have h0 := hfail 0 (Nat.succ_pos k)
      simp only [dialResult, List.getD_cons_zero, Nat.add_zero] at h0
      have hrest : ∀ j, j < k → dialResult lib answer (i + 1) rest j ≠ none := by
        intro j hj
        have := hfail (j + 1) (Nat.succ_lt_succ hj)
        simpa [dialResult, Nat.add_assoc, Nat.add_comm 1 j] using this
      have hok' : dialResult lib answer (i + 1) rest k = none := by
        simpa [dialResult, Nat.add_assoc, Nat.add_comm 1 k] using hok
      rcases h : connectToHost lib a (answer i) with ⟨_ | e, t⟩
      · rw [h] at h0; exact absurd rfl h0
      · have := ih (i + 1) k (by simpa using hk) hrest hok'
        simp [connectToInitialPeerList, h, this.1, this.2]

/-- Claim C1. One pass (`connectToInitialPeerList`) calls `connectToHost` on exactly the
addresses of the seed list up to and including the first one whose dial succeeds, in list
order, each once, and on none after it, and then returns `nil`; when every dial fails it
calls it on every address of the list once, in list order, and returns its error. This
holds for every seed list, every parsing library and every behaviour `answer` of the remote
ends, one per dial. -/
theorem C1_pass_dials_up_to_first_success (lib : Lib) (answer : Nat → Dial)
    (l : List String) :
    (∀ k, k < l.length →
        (∀ j, j < k → dialResult lib answer 0 l j ≠ none) →
        dialResult lib answer 0 l k = none →
        (connectToInitialPeerList lib answer 0 l).dialed = l.take (k + 1)
        ∧ (connectToInitialPeerList lib answer 0 l).err = none)
    ∧ ((∀ j, j < l.length → dialResult lib answer 0 l j ≠ none) →
        (connectToInitialPeerList lib answer 0 l).dialed = l
        ∧ (connectToInitialPeerList lib answer 0 l).err = some errUnableToConnect) :=
  ⟨fun k hk hfail hok => pass_first_success lib answer 0 l k hk hfail hok,
   fun hfail => pass_all_fail lib answer 0 l hfail⟩

/-! ## What remains to be done once the context is cancelled -/

theorem hostConnect_time_le (timeout : Nat) (d : Dial) :
    (hostConnect timeout d).2 ≤ timeout := by
  unfold hostConnect
  split
  · exact Nat.le_of_lt (by assumption)
  · exact Nat.le_refl _

/-- A call of `connectToHost` never lasts longer than `timeToConnect`. -/
theorem connectToHost_time_le (lib : Lib) (address : String) (d : Dial) :
    (connectToHost lib address d).2 ≤ timeToConnect := by
  unfold connectToHost
  split
  · exact Nat.zero_le _
  · split
    · exact Nat.zero_le _
    · exact hostConnect_time_le _ _

theorem stepsLeft_eq_zero (b : bootstrapper) : stepsLeft b = 0 ↔ b.pc = Pc.ended := by
  rcases b with ⟨l, c, pc, dl, ps, sl, bc, pr, ck⟩
  cases pc <;> simp [stepsLeft]

/-- With the context cancelled, no event increases the dials, sleeps and time still to
come, counted together with those already done, and every step of the goroutine brings it
closer to its end. -/
theorem step_cancelled_budget (lib : Lib) (b : bootstrapper) (e : Ev)
    (hc : b.cancelled = true) :
    (step lib b e).dialed.length + dialsLeft (step lib b e) ≤ b.dialed.length + dialsLeft b
    ∧ (step lib b e).sleeps + sleepsLeft (step lib b e) ≤ b.sleeps + sleepsLeft b
    ∧ (step lib b e).clock + timeLeft (step lib b e) ≤ b.clock + timeLeft b
    ∧ stepsLeft (step lib b e) ≤ stepsLeft b - (if e.isTask then 1 else 0) := by
  rcases b with ⟨l, c, pc, dl, ps, sl, bc, pr, ck⟩
  simp only at hc
  subst hc
  cases e with
  | trigger =>
    cases pc <;> simp [step, bootstrap, Ev.isTask]
  | cancel => simp [step, close, Ev.isTask, dialsLeft, sleepsLeft, timeLeft, stepsLeft]
  | task d be =>
    cases pc with
    | dialing a rest =>
      have ht := connectToHost_time_le lib a d
      rcases h : connectToHost lib a d with ⟨_ | e, t⟩
      · rw [h] at ht
        simp only at ht
        simp [step, tryStart, h, Ev.isTask, dialsLeft, sleepsLeft, timeLeft, stepsLeft,
          Nat.add_mul]
        omega
      · rw [h] at ht
        simp only at ht
        cases rest with
        | nil =>
          simp [step, tryStart, h, loopHead, Ev.isTask, dialsLeft, sleepsLeft, timeLeft,
            stepsLeft, Nat.add_mul]
          omega
        | cons a' rest' =>
          simp [step, tryStart, h, loopHead, Ev.isTask, dialsLeft, sleepsLeft, timeLeft,
            stepsLeft, Nat.add_mul]
          omega
    | received =>
      cases l <;>
        simp [step, tryStart, loopHead, Ev.isTask, dialsLeft, sleepsLeft, timeLeft, stepsLeft]
      omega
    | deferred =>
      cases be <;>
        simp [step, tryStart, Ev.isTask, dialsLeft, sleepsLeft, timeLeft, stepsLeft]
    | spawned =>
      simp [step, tryStart, selectEntry, Ev.isTask, dialsLeft, sleepsLeft, timeLeft, stepsLeft]
      split <;> simp
    | parked =>
      simp [step, tryStart, selectEntry, Ev.isTask, dialsLeft, sleepsLeft, timeLeft, stepsLeft]
    | sleeping =>
      simp [step, tryStart, selectEntry, Ev.isTask, dialsLeft, sleepsLeft, timeLeft, stepsLeft]
    | ended =>
      simp [step, tryStart, Ev.isTask, dialsLeft, sleepsLeft, timeLeft, stepsLeft]

theorem run_cancelled_budget (lib : Lib) (b : bootstrapper) (evs : List Ev)
    (hc : b.cancelled = true) :
    (run lib b evs).dialed.length + dialsLeft (run lib b evs) ≤ b.dialed.length + dialsLeft b
    ∧ (run lib b evs).sleeps + sleepsLeft (run lib b evs) ≤ b.sleeps + sleepsLeft b
    ∧ (run lib b evs).clock + timeLeft (run lib b evs) ≤ b.clock + timeLeft b
    ∧ stepsLeft (run lib b evs) ≤ stepsLeft b - taskSteps evs := by
  induction evs generalizing b with
  | nil => simp [run_nil, taskSteps_nil]
  | cons e evs ih =>
    have h1 := step_cancelled_budget lib b e hc
    have h2 := ih (step lib b e) (step_cancelled lib b e hc)
    rw [run_cons, taskSteps_cons]
    refine ⟨by omega, by omega, by omega, ?_⟩
    have h3 := h2.2.2.2
    have h4 := h1.2.2.2
    omega

/-- With the context cancelled, a goroutine that has taken `stepsLeft` steps has ended. -/
theorem run_cancelled_ends (lib : Lib) (b : bootstrapper) (evs : List Ev)
    (hc : b.cancelled = true) (hsteps : stepsLeft b ≤ taskSteps evs) :
    (run lib b evs).pc = Pc.ended := by
  have h := (run_cancelled_budget lib b evs hc).2.2.2
  exact (stepsLeft_eq_zero _).1 (by omega)

theorem step_dialingWithinList (lib : Lib) (b : bootstrapper) (e : Ev)
    (hb : DialingWithinList b) : DialingWithinList (step lib b e) := by
  rcases b with ⟨l, c, pc, dl, ps, sl, bc, pr, ck⟩
  cases e with
  | trigger => cases pc <;> cases c <;> simp_all [step, bootstrap, DialingWithinList]
  | cancel => simpa [step, close, DialingWithinList] using hb
  | task d be =>
    cases pc with
    | dialing a rest =>
      have hlen : rest.length < l.length := hb a rest rfl
      rcases h : connectToHost lib a d with ⟨_ | e, t⟩
      · simp [step, tryStart, h, DialingWithinList]
      · cases rest with
        | nil => simp [step, tryStart, h, loopHead, DialingWithinList]
        | cons a' rest' =>
          simp only [List.length_cons] at hlen
          simp [step, tryStart, h, loopHead, DialingWithinList]
          omega
    | received => cases l <;> simp [step, tryStart, loopHead, DialingWithinList]
    | deferred => cases be <;> simp [step, tryStart, DialingWithinList]
    | ended => simp [step, tryStart, DialingWithinList]
    | _ =>
      cases c <;> simp [step, tryStart, selectEntry, DialingWithinList] <;> split <;> simp

/-- In every state an execution reaches from construction, the addresses still to visit
after the dial in flight are fewer than the seed list has. -/
theorem reachable_dialingWithinList (lib : Lib) (l : List String) (evs : List Ev) :
    DialingWithinList (run lib (initial l) evs) :=
  run_invariant lib DialingWithinList (step_dialingWithinList lib) (initial l)
    (by simp [DialingWithinList, initial]) evs

/-- In a state where the addresses still to visit are fewer than the seed list has, the
dials still to run and the time still to spend are bounded by the length of the list. -/
theorem budget_le_of_dialingWithinList (b : bootstrapper) (hb : DialingWithinList b) :
    dialsLeft b + inFlight b ≤ b.initialPeerList.length
    ∧ timeLeft b ≤ b.initialPeerList.length * timeToConnect
        + retryReconnectionToInitialPeerListInterval
    ∧ stepsLeft b ≤ b.initialPeerList.length + 3 := by
  rcases b with ⟨l, c, pc, dl, ps, sl, bc, pr, ck⟩
  cases pc with
  | dialing a rest =>
    have hlen : rest.length < l.length := hb a rest rfl
    have hmul : (rest.length + 1) * timeToConnect ≤ l.length * timeToConnect :=
      Nat.mul_le_mul_right _ hlen
    simp only [dialsLeft, inFlight, timeLeft, stepsLeft]
    omega
  | _ => simp [dialsLeft, inFlight, timeLeft, stepsLeft]

theorem close_budget (b : bootstrapper) :
    dialsLeft (close b) = dialsLeft b ∧ sleepsLeft (close b) = sleepsLeft b
    ∧ timeLeft (close b) = timeLeft b ∧ stepsLeft (close b) = stepsLeft b
    ∧ inFlight (close b) = inFlight b := by
  simp [close, dialsLeft, sleepsLeft, timeLeft, stepsLeft, inFlight]

/-- With the context cancelled and no start event received, no event leads to a state
where one is received, and the number of passes stays as it is. -/
theorem step_cancelled_no_pass (lib : Lib) (b : bootstrapper) (e : Ev)
    (hc : b.cancelled = true) (hpc : b.pc ≠ Pc.received) :
    (step lib b e).pc ≠ Pc.received ∧ (step lib b e).passes = b.passes := by
  rcases b with ⟨l, c, pc, dl, ps, sl, bc, pr, ck⟩
  simp only at hc hpc
  subst hc
  cases e with
  | trigger => cases pc <;> simp_all [step, bootstrap]
  | cancel => simpa [step, close] using hpc
  | task d be =>
    cases pc with
    | dialing a rest =>
      rcases h : connectToHost lib a d with ⟨_ | e, t⟩
      · simp [step, tryStart, h]
      · cases rest <;> simp [step, tryStart, h, loopHead]
    | received => exact absurd rfl hpc
    | deferred => cases be <;> simp [step, tryStart]
    | ended => simp [step, tryStart]
    | _ => simp [step, tryStart, selectEntry] <;> split <;> simp

theorem run_cancelled_no_pass (lib : Lib) (b : bootstrapper) (evs : List Ev)
    (hc : b.cancelled = true) (hpc : b.pc ≠ Pc.received) :
    (run lib b evs).pc ≠ Pc.received ∧ (run lib b evs).passes = b.passes := by
  have h := run_invariant lib
    (fun x => x.cancelled = true ∧ x.pc ≠ Pc.received ∧ x.passes = b.passes)
    (fun x e hx =>
      ⟨step_cancelled lib x e hx.1, (step_cancelled_no_pass lib x e hx.1 hx.2.1).1,
        ((step_cancelled_no_pass lib x e hx.1 hx.2.1).2).trans hx.2.2⟩)
    b ⟨hc, hpc, rfl⟩ evs
  exact ⟨h.2.1, h.2.2⟩

/-- With the context cancelled, a goroutine that is at its `select` or in `time.Sleep`
returns from `tryStart` with its next step. -/
theorem tryStart_cancelled_at_wait (lib : Lib) (b : bootstrapper) (d : Dial)
    (be : Option Error) (hc : b.cancelled = true)
    (hpc : b.pc = Pc.parked ∨ b.pc = Pc.sleeping) :
    (tryStart lib b d be).pc = Pc.deferred := by
  rcases b with ⟨l, c, pc, dl, ps, sl, bc, pr, ck⟩
  simp only at hc hpc
  subst hc
  rcases hpc with h | h <;> subst h <;> simp [tryStart, selectEntry]

/-! ## Cancellation -/

/-- Claim C5. When `close()` is called while the goroutine waits in its `select`, while a
dial is in flight, or during the retry delay, then whatever happens afterwards (any number
of `bootstrap()` and `close()` calls, any dial outcomes): no further pass is started and no
start event is received; whenever the goroutine is at its `select` or in `time.Sleep`, its
next step returns from `tryStart`; it has ended once it has taken `stepsLeft` steps (the
dials of the pass in progress, the retry delay, the return and the deferred call); and
a second `close()` changes nothing. -/
theorem C5_no_pass_after_cancel (lib : Lib) (b : bootstrapper)
    (hphase : b.pc = Pc.parked ∨ (∃ a rest, b.pc = Pc.dialing a rest) ∨ b.pc = Pc.sleeping)
    (evs : List Ev) :
    (run lib (close b) evs).passes = b.passes
    ∧ (run lib (close b) evs).pc ≠ Pc.received
    ∧ (∀ d be, (run lib (close b) evs).pc = Pc.parked
          ∨ (run lib (close b) evs).pc = Pc.sleeping →
        (tryStart lib (run lib (close b) evs) d be).pc = Pc.deferred)
    ∧ (stepsLeft b ≤ taskSteps evs → (run lib (close b) evs).pc = Pc.ended)
    ∧ close (close b) = close b := by
  have hc : (close b).cancelled = true := rfl
  have hpc : (close b).pc ≠ Pc.received := by
    rcases hphase with h | ⟨a, rest, h⟩ | h <;> simp [close, h]
  have hno := run_cancelled_no_pass lib (close b) evs hc hpc
  refine ⟨hno.2, hno.1, ?_, ?_, rfl⟩
  · intro d be hwait
    exact tryStart_cancelled_at_wait lib _ d be (run_cancelled lib _ evs hc) hwait
  · intro hsteps
    exact run_cancelled_ends lib (close b) evs hc (by rw [(close_budget b).2.2.2.1]; exact hsteps)

/-- Claim C5 at a concrete execution: `close()` during the first dial of a pass over three
addresses, followed by a `bootstrap()` call and six steps of the goroutine. -/
theorem C5_no_pass_after_cancel_witness :
    duringFirstDial.pc = Pc.dialing "/ip4/10.0.0.1/tcp/1/p2p/A"
        ["/ip4/10.0.0.2/tcp/1/p2p/B", "/ip4/10.0.0.3/tcp/1/p2p/C"]
    ∧ (run sampleLib (close duringFirstDial) (Ev.trigger :: silentSteps)).passes = 1
    ∧ (run sampleLib (close duringFirstDial) (Ev.trigger :: silentSteps)).pc = Pc.ended :=
  have h := C5_no_pass_after_cancel sampleLib duringFirstDial
    (Or.inr (Or.inl ⟨_, _, rfl⟩)) (Ev.trigger :: silentSteps)
  ⟨rfl, h.1, h.2.2.2.1 (by decide)⟩

/-- Claim C6 as stated fails: `close()` is called while the first of three dials is in
flight and no remote end ever answers. Two further dials are begun after the cancellation,
and the goroutine ends eleven seconds after it, not within the seven seconds of one dial
timeout plus the retry delay. -/
theorem C6_counterexample :
    duringFirstDial.dialed = ["/ip4/10.0.0.1/tcp/1/p2p/A"]
    ∧ (run sampleLib (close duringFirstDial) silentSteps).pc = Pc.ended
    ∧ (run sampleLib (close duringFirstDial) silentSteps).dialed = threeSeeds
    ∧ (run sampleLib (close duringFirstDial) silentSteps).clock
        = duringFirstDial.clock + 11 * second
    ∧ ¬ ((run sampleLib (close duringFirstDial) silentSteps).dialed.length
          = duringFirstDial.dialed.length
        ∧ (run sampleLib (close duringFirstDial) silentSteps).clock
          ≤ duringFirstDial.clock + timeToConnect
            + retryReconnectionToInitialPeerListInterval) := by
  decide

/-- Claim C6, amended. From the moment `close()` is called, in any state an execution
reaches from construction and whatever happens afterwards: the dials that run (the one in
flight and those begun later) are at most as many as the seed list has addresses, each
lasting at most the 2-second `timeToConnect`; at most one 5-second retry delay elapses; so
the goroutine spends at most `len(initialPeerList)` dial timeouts plus the retry delay
before it ends, and it has ended once it has taken `len(initialPeerList) + 3` steps. -/
theorem C6_cancel_latency_bounded_by_pass (lib : Lib) (l : List String)
    (pre post : List Ev) :
    (run lib (close (run lib (initial l) pre)) post).dialed.length
        + inFlight (run lib (initial l) pre)
      ≤ (run lib (initial l) pre).dialed.length + l.length
    ∧ (run lib (close (run lib (initial l) pre)) post).sleeps
      ≤ (run lib (initial l) pre).sleeps + 1
    ∧ (run lib (close (run lib (initial l) pre)) post).clock
      ≤ (run lib (initial l) pre).clock + l.length * (2 * second) + 5 * second
    ∧ (l.length + 3 ≤ taskSteps post
        → (run lib (close (run lib (initial l) pre)) post).pc = Pc.ended)
    ∧ (∀ address d, (connectToHost lib address d).2 ≤ 2 * second) := by
  have hwf := reachable_dialingWithinList lib l pre
  have hl : (run lib (initial l) pre).initialPeerList = l := run_initialPeerList lib _ pre
  have hb := budget_le_of_dialingWithinList _ hwf
  rw [hl] at hb
  have hcl := close_budget (run lib (initial l) pre)
  have hc : (close (run lib (initial l) pre)).cancelled = true := rfl
  have hrun := run_cancelled_budget lib (close (run lib (initial l) pre)) post hc
  have hd : (close (run lib (initial l) pre)).dialed = (run lib (initial l) pre).dialed := rfl
  have hs : (close (run lib (initial l) pre)).sleeps = (run lib (initial l) pre).sleeps := rfl
  have hk : (close (run lib (initial l) pre)).clock = (run lib (initial l) pre).clock := rfl
  have hsl : sleepsLeft (run lib (initial l) pre) ≤ 1 := by
    unfold sleepsLeft; split <;> simp
  have htc : timeToConnect = 2 * second := by decide
  have hri : retryReconnectionToInitialPeerListInterval = 5 * second := by decide
  rw [hd, hs, hk, hcl.1, hcl.2.1, hcl.2.2.1, hcl.2.2.2.1] at hrun
  rw [htc, hri] at hb
  refine ⟨by omega, by omega, by omega, ?_, ?_⟩
  · intro hsteps
    exact run_cancelled_ends lib _ post hc (by rw [hcl.2.2.2.1]; omega)
  · intro address d
    have := connectToHost_time_le lib address d
    rw [htc] at this
    exact this

/-! ## After the goroutine has returned -/

/-- Once the goroutine has ended, no event makes it do anything. -/
theorem run_ended (lib : Lib) (b : bootstrapper) (evs : List Ev) (hpc : b.pc = Pc.ended) :
    (run lib b evs).pc = Pc.ended ∧ done (run lib b evs) = done b := by
  refine run_invariant lib (fun x => x.pc = Pc.ended ∧ done x = done b) ?_ b ⟨hpc, rfl⟩ evs
  intro x e hx
  rcases x with ⟨l, c, pc, dl, ps, sl, bc, pr, ck⟩
  rcases hx with ⟨h1, h2⟩
  simp only at h1
  subst h1
  cases e <;> exact ⟨rfl, h2⟩

/-- Once the body of `tryStart` has returned, the first step of the goroutine makes the one
call of `kadDHT.Bootstrap` and ends it; nothing is dialed and no pass is started. -/
theorem run_deferred (lib : Lib) (b : bootstrapper) (evs : List Ev)
    (hpc : b.pc = Pc.deferred) :
    (run lib b evs).dialed = b.dialed ∧ (run lib b evs).passes = b.passes
    ∧ (run lib b evs).sleeps = b.sleeps ∧ (run lib b evs).clock = b.clock
    ∧ (run lib b evs).pc = (if taskSteps evs = 0 then Pc.deferred else Pc.ended)
    ∧ (run lib b evs).bootstrapCalls
        = b.bootstrapCalls + (if taskSteps evs = 0 then 0 else 1) := by
  induction evs generalizing b with
  | nil => simp [run_nil, taskSteps_nil, hpc]
  | cons e evs ih =>
    rcases b with ⟨l, c, pc, dl, ps, sl, bc, pr, ck⟩
    simp only at hpc
    subst hpc
    rw [run_cons, taskSteps_cons]
    cases e with
    | trigger =>
      have := ih ⟨l, c, Pc.deferred, dl, ps, sl, bc, pr, ck⟩ rfl
      simpa [step, bootstrap, Ev.isTask] using this
    | cancel =>
      have := ih ⟨l, true, Pc.deferred, dl, ps, sl, bc, pr, ck⟩ rfl
      simpa [step, close, Ev.isTask] using this
    | task d be =>
      have hend : (step lib ⟨l, c, Pc.deferred, dl, ps, sl, bc, pr, ck⟩ (Ev.task d be)).pc
          = Pc.ended := by cases be <;> rfl
      have hdone : done (step lib ⟨l, c, Pc.deferred, dl, ps, sl, bc, pr, ck⟩ (Ev.task d be))
          = (dl, ps, sl, bc + 1,
              (step lib ⟨l, c, Pc.deferred, dl, ps, sl, bc, pr, ck⟩ (Ev.task d be)).printed,
              ck) := by cases be <;> rfl
      have := run_ended lib _ evs hend
      rw [hdone] at this
      simp only [done, Prod.mk.injEq] at this
      simp [Ev.isTask, this.1, this.2]

/-- A goroutine spawned with an empty seed list returns from `tryStart` with its first step
and calls `kadDHT.Bootstrap` with its second, whatever else happens. -/
theorem run_spawned_empty (lib : Lib) (b : bootstrapper) (evs : List Ev)
    (hpc : b.pc = Pc.spawned) (hl : b.initialPeerList = []) :
    (run lib b evs).dialed = b.dialed ∧ (run lib b evs).passes = b.passes
    ∧ (run lib b evs).sleeps = b.sleeps ∧ (run lib b evs).clock = b.clock
    ∧ (run lib b evs).pc = (if taskSteps evs = 0 then Pc.spawned
        else if taskSteps evs = 1 then Pc.deferred else Pc.ended)
    ∧ (run lib b evs).bootstrapCalls
        = b.bootstrapCalls + (if taskSteps evs ≤ 1 then 0 else 1) := by
  induction evs generalizing b with
  | nil => simp [run_nil, taskSteps_nil, hpc]
  | cons e evs ih =>
    rcases b with ⟨l, c, pc, dl, ps, sl, bc, pr, ck⟩
    simp only at hpc hl
    subst hpc
    subst hl
    rw [run_cons, taskSteps_cons]
    cases e with
    | trigger =>
      have := ih ⟨[], c, Pc.spawned, dl, ps, sl, bc, pr, ck⟩ rfl rfl
      simpa [step, bootstrap, Ev.isTask] using this
    | cancel =>
      have := ih ⟨[], true, Pc.spawned, dl, ps, sl, bc, pr, ck⟩ rfl rfl
      simpa [step, close, Ev.isTask] using this
    | task d be =>
      have := run_deferred lib (step lib ⟨[], c, Pc.spawned, dl, ps, sl, bc, pr, ck⟩
        (Ev.task d be)) evs rfl
      simp only [step, tryStart, List.length_nil, if_true] at this
      simp only [step, tryStart, List.length_nil, if_true, Ev.isTask]
      refine ⟨this.1, this.2.1, this.2.2.1, this.2.2.2.1, ?_, ?_⟩
      · rw [this.2.2.2.2.1]
        by_cases h : taskSteps evs = 0 <;> simp [h]
      · rw [this.2.2.2.2.2]
        by_cases h : taskSteps evs = 0 <;> simp [h]

/-! ## The deferred call, the empty list, and the end after a success -/

/-- Claim C2. In every execution from construction (every seed list, every sequence of
`bootstrap()` and `close()` calls, every dial outcome), `kadDHT.Bootstrap` has not been
called while the goroutine has not ended and has been called exactly once when it has
ended; and an error returned by `kadDHT.Bootstrap` adds one printed line and changes
nothing else. -/
theorem C2_bootstrap_once_at_exit (lib : Lib) (l : List String) (evs : List Ev) :
    (run lib (initial l) evs).bootstrapCalls
      = (if (run lib (initial l) evs).pc = Pc.ended then 1 else 0)
    ∧ (∀ (b : bootstrapper) (d : Dial) (e : Error),
        tryStart lib b d (some e)
          = { tryStart lib b d none with
              printed := (tryStart lib b d none).printed
                ++ (if b.pc = Pc.deferred then [Log.bootstrapError e] else []) }) := by
  constructor
  · exact run_invariant lib BootstrapAtEnd (step_bootstrapAtEnd lib) (initial l)
      (by simp [BootstrapAtEnd, initial]) evs
  · intro b d e
    rcases b with ⟨l, c, pc, dl, ps, sl, bc, pr, ck⟩
    cases pc <;> simp [tryStart]

/-- Claim C8. With an empty seed list, whatever `bootstrap()` and `close()` calls are made
or not made, the position of the goroutine depends only on the number of steps it has
taken: its first step returns from `tryStart` and its second calls `kadDHT.Bootstrap` and
ends it. It never waits in the `select`, never starts a pass and never dials, and
`kadDHT.Bootstrap` is called exactly once. -/
theorem C8_empty_list_ends_at_once (lib : Lib) (evs : List Ev) :
    (run lib (initial []) evs).dialed = []
    ∧ (run lib (initial []) evs).passes = 0
    ∧ (run lib (initial []) evs).pc
        = (if taskSteps evs = 0 then Pc.spawned
            else if taskSteps evs = 1 then Pc.deferred else Pc.ended)
    ∧ (run lib (initial []) evs).bootstrapCalls = (if taskSteps evs ≤ 1 then 0 else 1) := by
  have h := run_spawned_empty lib (initial []) evs rfl rfl
  refine ⟨h.1, h.2.1, h.2.2.2.2.1, ?_⟩
  rw [h.2.2.2.2.2]
  simp [initial]

/-- Claim C9. When the dial in flight succeeds, `tryStart` returns; from then on, whatever
events follow (any number of `bootstrap()` calls included), no address is dialed, no pass
is started, the first step of the goroutine makes the single call of `kadDHT.Bootstrap`
and ends it, and `bootstrap()` returns leaving the state as it is. -/
theorem C9_nothing_after_success (lib : Lib) (b : bootstrapper) (a : String)
    (rest : List String) (d : Dial) (be : Option Error)
    (hpc : b.pc = Pc.dialing a rest) (hok : (connectToHost lib a d).1 = none)
    (evs : List Ev) :
    (tryStart lib b d be).pc = Pc.deferred
    ∧ (run lib (tryStart lib b d be) evs).dialed = b.dialed
    ∧ (run lib (tryStart lib b d be) evs).passes = b.passes
    ∧ (run lib (tryStart lib b d be) evs).pc
        = (if taskSteps evs = 0 then Pc.deferred else Pc.ended)
    ∧ (run lib (tryStart lib b d be) evs).bootstrapCalls
        = b.bootstrapCalls + (if taskSteps evs = 0 then 0 else 1)
    ∧ bootstrap (run lib (tryStart lib b d be) evs) = run lib (tryStart lib b d be) evs := by
  rcases b with ⟨l, c, pc, dl, ps, sl, bc, pr, ck⟩
  simp only at hpc
  subst hpc
  rcases h : connectToHost lib a d with ⟨_ | e, t⟩
  · have hstep : tryStart lib ⟨l, c, Pc.dialing a rest, dl, ps, sl, bc, pr, ck⟩ d be
        = ⟨l, c, Pc.deferred, dl, ps, sl, bc, pr ++ [Log.connected], ck + t⟩ := by
      simp [tryStart, h]
    rw [hstep]
    have hrun := run_deferred lib ⟨l, c, Pc.deferred, dl, ps, sl, bc,
      pr ++ [Log.connected], ck + t⟩ evs rfl
    refine ⟨rfl, hrun.1, hrun.2.1, hrun.2.2.2.2.1, hrun.2.2.2.2.2, ?_⟩
    have hpc := hrun.2.2.2.2.1
    generalize run lib ⟨l, c, Pc.deferred, dl, ps, sl, bc, pr ++ [Log.connected], ck + t⟩ evs
      = x at hpc
    rcases x with ⟨l', c', pc', dl', ps', sl', bc', pr', ck'⟩
    simp only at hpc
    by_cases hz : taskSteps evs = 0 <;> simp [hz] at hpc <;> subst hpc <;> rfl
  · rw [h] at hok
    simp at hok

/-- Claim C10. `newBootstrapper` returns an error exactly when `dht.New` does; it then
returns that error and no instance, and executes no `go` statement. When `dht.New`
succeeds, it returns the instance in its initial state and no error, and executes the `go`
statement once; this holds for every seed list, which the constructor stores without
looking at its strings. -/
theorem C10_construction_fails_only_with_dht (dhtNew : Except Error Unit)
    (l : List String) :
    ((newBootstrapper dhtNew l).err ≠ none ↔ ∃ e, dhtNew = Except.error e)
    ∧ (∀ e, dhtNew = Except.error e → newBootstrapper dhtNew l = ⟨none, some e, 0⟩)
    ∧ (∀ u, dhtNew = Except.ok u → newBootstrapper dhtNew l = ⟨some (initial l), none, 1⟩) := by
  cases dhtNew with
  | error e => simp [newBootstrapper]
  | ok u => simp [newBootstrapper]

/-- Claim C10 at concrete inputs: a seed list of malformed strings with a routing table
that constructs, and the same list with one that does not. The malformed first address
is only rejected when it is dialed. -/
theorem C10_construction_fails_only_with_dht_witness :
    newBootstrapper (Except.ok ()) malformedSeeds = ⟨some (initial malformedSeeds), none, 1⟩
    ∧ newBootstrapper (Except.error "invalid protocol") malformedSeeds
        = ⟨none, some "invalid protocol", 0⟩
    ∧ (connectToHost sampleLib "" dialOk).1 = some "empty multiaddr" :=
  ⟨(C10_construction_fails_only_with_dht (Except.ok ()) malformedSeeds).2.2 () rfl,
   (C10_construction_fails_only_with_dht (Except.error "invalid protocol")
      malformedSeeds).2.1 "invalid protocol" rfl,
   by decide⟩

/-- Claim C9 at a concrete execution: the first dial of a pass over three addresses
succeeds; two `bootstrap()` calls and two steps of the goroutine follow. -/
theorem C9_nothing_after_success_witness :
    (connectToHost sampleLib "/ip4/10.0.0.1/tcp/1/p2p/A" dialOk).1 = none
    ∧ (run sampleLib (tryStart sampleLib duringFirstDial dialOk none)
        (Ev.trigger :: Ev.trigger :: twoSteps)).dialed = ["/ip4/10.0.0.1/tcp/1/p2p/A"]
    ∧ (run sampleLib (tryStart sampleLib duringFirstDial dialOk none)
        (Ev.trigger :: Ev.trigger :: twoSteps)).bootstrapCalls = 1 :=
  have h := C9_nothing_after_success sampleLib duringFirstDial "/ip4/10.0.0.1/tcp/1/p2p/A"
    ["/ip4/10.0.0.2/tcp/1/p2p/B", "/ip4/10.0.0.3/tcp/1/p2p/C"] dialOk none rfl (by decide)
    (Ev.trigger :: Ev.trigger :: twoSteps)
  ⟨by decide, h.2.1, h.2.2.2.2.1⟩

/-! ## The start signal -/

/-- A goroutine blocked in its `select` with the context not cancelled does not move. -/
theorem tryStart_parked (lib : Lib) (b : bootstrapper) (d : Dial) (be : Option Error)
    (hpc : b.pc = Pc.parked) (hnc : b.cancelled = false) : tryStart lib b d be = b := by
  rcases b with ⟨l, c, pc, dl, ps, sl, bc, pr, ck⟩
  simp only at hpc hnc
  subst hpc
  subst hnc
  simp [tryStart]

/-- A goroutine blocked in its `select` stays there as long as nobody calls `bootstrap()`
or `close()`. -/
theorem run_parked (lib : Lib) (b : bootstrapper) (evs : List Ev)
    (hpc : b.pc = Pc.parked) (hnc : b.cancelled = false)
    (hno : ∀ e ∈ evs, e.isTrigger = false ∧ e.isCancel = false) : run lib b evs = b := by
  induction evs with
  | nil => rfl
  | cons e evs ih =>
    have he := hno e (List.mem_cons_self _ _)
    have ih' := ih (fun e' he' => hno e' (List.mem_cons_of_mem _ he'))
    cases e with
    | trigger => simp [Ev.isTrigger] at he
    | cancel => simp [Ev.isCancel] at he
    | task d be => rw [run_cons, step, tryStart_parked lib b d be hpc hnc, ih']

/-- The send in `bootstrap()` finds a receiver only when the goroutine is blocked in its
`select`: in every other position the call leaves the state as it is. -/
theorem bootstrap_of_not_parked (b : bootstrapper) (hpc : b.pc ≠ Pc.parked) :
    bootstrap b = b := by
  rcases b with ⟨l, c, pc, dl, ps, sl, bc, pr, ck⟩
  cases pc <;> simp_all [bootstrap]

/-- When the goroutine is blocked in its `select`, a first `bootstrap()` hands it the start
event and a second one right after finds no receiver. -/
theorem bootstrap_twice_when_parked (b : bootstrapper) (hpc : b.pc = Pc.parked)
    (hnc : b.cancelled = false) :
    bootstrap b = { b with pc := Pc.received } ∧ bootstrap (bootstrap b) = bootstrap b := by
  rcases b with ⟨l, c, pc, dl, ps, sl, bc, pr, ck⟩
  simp only at hpc hnc
  subst hpc
  subst hnc
  simp [bootstrap]

/-- Claim C3 fails on the code. With one reachable seed address, `bootstrap()` is called
once right after construction, before the goroutine has reached its `select`: the call
leaves the state as it was (no start event is pending), and however many steps the
goroutine then takes, it sits in its `select` having started no pass and dialed nothing.
The same call made while a dial is in flight changes nothing either. -/
theorem C3_trigger_before_wait_is_lost :
    bootstrap (initial oneSeed) = initial oneSeed
    ∧ bootstrap duringFirstDial = duringFirstDial
    ∧ ∀ n : Nat,
        run sampleLib (initial oneSeed)
            (Ev.trigger :: List.replicate (n + 1) (Ev.task dialOk none))
          = { initial oneSeed with pc := Pc.parked } := by
  refine ⟨by decide, by decide, ?_⟩
  intro n
  rw [run_cons, List.replicate_succ, run_cons]
  exact run_parked sampleLib _ _ rfl rfl (fun e he => by
    rw [List.eq_of_mem_replicate he]; exact ⟨rfl, rfl⟩)

/-- Claim C4 fails on the code. With one reachable seed address, `bootstrap()` is called
twice in a row right after construction, before the goroutine has reached its `select`:
both calls find no receiver, and however many steps the goroutine then takes, it sits in
its `select` having started no pass at all. -/
theorem C4_two_triggers_before_wait_start_no_pass :
    ∀ n : Nat,
      (run sampleLib (initial oneSeed)
          (Ev.trigger :: Ev.trigger :: List.replicate (n + 1) (Ev.task dialOk none))).passes = 0
      ∧ (run sampleLib (initial oneSeed)
          (Ev.trigger :: Ev.trigger :: List.replicate (n + 1) (Ev.task dialOk none))).pc
        = Pc.parked := by
  intro n
  rw [run_cons, run_cons, List.replicate_succ, run_cons]
  rw [run_parked sampleLib _ _ rfl rfl (fun e he => by
    rw [List.eq_of_mem_replicate he]; exact ⟨rfl, rfl⟩)]
  exact ⟨rfl, rfl⟩

/-! ## The goroutine's pass and `connectToInitialPeerList` -/

theorem pass_dialed_head (lib : Lib) (answer : Nat → Dial) (i : Nat) (a : String)
    (rest : List String) :
    (connectToInitialPeerList lib answer i (a :: rest)).dialed
      = a :: (connectToInitialPeerList lib answer i (a :: rest)).dialed.tail := by
  rcases h : connectToHost lib a (answer i) with ⟨_ | e, t⟩ <;>
    simp [connectToInitialPeerList, h]

/-- The steps of the goroutine through the loop of `connectToInitialPeerList`, taken one
dial at a time, do what the function run in one piece does: from a state with the dial of
`a` in flight and `rest` to follow, after as many steps as the function makes calls of
`connectToHost`, the further addresses dialed, the lines printed and the time spent are
those of the function, and the goroutine sleeps if it returned an error and has returned
from `tryStart` if not. -/
theorem run_pass_from_dialing (lib : Lib) (answer : Nat → Dial) (rest : List String)
    (a : String) (i : Nat) (b : bootstrapper) (hpc : b.pc = Pc.dialing a rest) :
    run lib b (passSteps answer i
        (connectToInitialPeerList lib answer i (a :: rest)).dialed.length)
      = { b with
          pc := if (connectToInitialPeerList lib answer i (a :: rest)).err = none
            then Pc.deferred else Pc.sleeping
          dialed := b.dialed ++ (connectToInitialPeerList lib answer i (a :: rest)).dialed.tail
          printed := b.printed ++ (connectToInitialPeerList lib answer i (a :: rest)).printed
            ++ (if (connectToInitialPeerList lib answer i (a :: rest)).err = none
              then [Log.connected] else [])
          clock := b.clock + (connectToInitialPeerList lib answer i (a :: rest)).elapsed } := by
  induction rest generalizing a i b with
  | nil =>
    rcases b with ⟨l, c, pc, dl, ps, sl, bc, pr, ck⟩
    simp only at hpc
    subst hpc
    rcases h : connectToHost lib a (answer i) with ⟨_ | e, t⟩ <;>
      simp [connectToInitialPeerList, h, passSteps, run_cons, run_nil, step, tryStart,
        loopHead, errUnableToConnect]
  | cons a' rest' ih =>
    rcases b with ⟨l, c, pc, dl, ps, sl, bc, pr, ck⟩
    simp only at hpc
    subst hpc
    rcases h : connectToHost lib a (answer i) with ⟨_ | e, t⟩
    · simp [connectToInitialPeerList, h, passSteps, run_cons, run_nil, step, tryStart]
    · have hhead := pass_dialed_head lib answer (i + 1) a' rest'
      have hr : connectToInitialPeerList lib answer i (a :: a' :: rest')
          = ⟨a :: (connectToInitialPeerList lib answer (i + 1) (a' :: rest')).dialed,
             Log.dialError a e :: (connectToInitialPeerList lib answer (i + 1)
               (a' :: rest')).printed,
             (connectToInitialPeerList lib answer (i + 1) (a' :: rest')).err,
             t + (connectToInitialPeerList lib answer (i + 1) (a' :: rest')).elapsed⟩ := by
        rw [connectToInitialPeerList, h]
      rw [hr]
      simp only [List.length_cons, passSteps, run_cons, List.tail_cons]
      have hstep : step lib ⟨l, c, Pc.dialing a (a' :: rest'), dl, ps, sl, bc, pr, ck⟩
          (Ev.task (answer i) none)
          = ⟨l, c, Pc.dialing a' rest', dl ++ [a'], ps, sl, bc,
              pr ++ [Log.dialError a e], ck + t⟩ := by
        simp [step, tryStart, h, loopHead]
      rw [hstep, ih a' (i + 1) _ rfl]
      generalize connectToInitialPeerList lib answer (i + 1) (a' :: rest') = r at hhead
      rcases r with ⟨rd, rp, re, rt⟩
      simp only at hhead
      simp only [bootstrapper.mk.injEq, true_and, List.append_assoc, List.singleton_append,
        List.cons_append, List.nil_append, Nat.add_assoc, and_true]
      rw [← hhead]

/-- The same for a whole pass: from the state in which the start event has been received,
the step that calls `connectToInitialPeerList` and then one step per dial the function
makes do what the function run in one piece does. -/
theorem tryStart_pass_refines (lib : Lib) (answer : Nat → Dial) (b : bootstrapper)
    (d : Dial) (be : Option Error) (hpc : b.pc = Pc.received) :
    run lib b (Ev.task d be :: passSteps answer 0
        (connectToInitialPeerList lib answer 0 b.initialPeerList).dialed.length)
      = { b with
          pc := if (connectToInitialPeerList lib answer 0 b.initialPeerList).err = none
            then Pc.deferred else Pc.sleeping
          passes := b.passes + 1
          dialed := b.dialed ++ (connectToInitialPeerList lib answer 0 b.initialPeerList).dialed
          printed := b.printed
            ++ (connectToInitialPeerList lib answer 0 b.initialPeerList).printed
            ++ (if (connectToInitialPeerList lib answer 0 b.initialPeerList).err = none
              then [Log.connected] else [])
          clock := b.clock
            + (connectToInitialPeerList lib answer 0 b.initialPeerList).elapsed } := by
  rcases b with ⟨l, c, pc, dl, ps, sl, bc, pr, ck⟩
  simp only at hpc
  subst hpc
  cases l with
  | nil =>
    simp [connectToInitialPeerList, passSteps, run_cons, run_nil, step, tryStart, loopHead,
      errUnableToConnect]
  | cons a rest =>
    have hstep : step lib ⟨a :: rest, c, Pc.received, dl, ps, sl, bc, pr, ck⟩ (Ev.task d be)
        = ⟨a :: rest, c, Pc.dialing a rest, dl ++ [a], ps + 1, sl, bc, pr, ck⟩ := by
      simp [step, tryStart, loopHead]
    have hhead := pass_dialed_head lib answer 0 a rest
    rw [run_cons, hstep, run_pass_from_dialing lib answer rest a 0 _ rfl]
    generalize connectToInitialPeerList lib answer 0 (a :: rest) = r at hhead
    rcases r with ⟨rd, rp, re, rt⟩
    simp only at hhead
    simp only [bootstrapper.mk.injEq, true_and, List.append_assoc, List.singleton_append,
      and_true]
    rw [← hhead]

/-! ## After an exhausted pass -/

/-- Outside a pass, an event other than a `bootstrap()` call leaves the goroutine outside a
pass, dials nothing and starts no pass. -/
theorem step_idle (lib : Lib) (b : bootstrapper) (e : Ev) (hb : Idle b)
    (he : e.isTrigger = false) :
    Idle (step lib b e) ∧ (step lib b e).dialed = b.dialed
    ∧ (step lib b e).passes = b.passes := by
  rcases b with ⟨l, c, pc, dl, ps, sl, bc, pr, ck⟩
  cases e with
  | trigger => simp [Ev.isTrigger] at he
  | cancel => exact ⟨hb, rfl, rfl⟩
  | task d be =>
    rcases hb with h | h | h | h <;> simp only at h <;> subst h
    · cases c <;> simp [step, tryStart, selectEntry, Idle]
    · cases c <;> simp [step, tryStart, selectEntry, Idle]
    · cases be <;> simp [step, tryStart, Idle]
    · simp [step, tryStart, Idle]

theorem run_idle (lib : Lib) (b : bootstrapper) (evs : List Ev) (hb : Idle b)
    (hno : ∀ e ∈ evs, e.isTrigger = false) :
    (run lib b evs).dialed = b.dialed ∧ (run lib b evs).passes = b.passes := by
  induction evs generalizing b with
  | nil => exact ⟨rfl, rfl⟩
  | cons e evs ih =>
    have h1 := step_idle lib b e hb (hno e (List.mem_cons_self _ _))
    have h2 := ih (step lib b e) h1.1 (fun e' he' => hno e' (List.mem_cons_of_mem _ he'))
    rw [run_cons]
    exact ⟨h2.1.trans h1.2.1, h2.2.trans h1.2.2⟩

/-- A goroutine in `time.Sleep` whose context is not cancelled: as long as nobody calls
`bootstrap()` or `close()`, its first step ends the sleep after the retry interval and
blocks in the `select`, and it stays there. -/
theorem run_sleeping (lib : Lib) (b : bootstrapper) (evs : List Ev)
    (hpc : b.pc = Pc.sleeping) (hnc : b.cancelled = false)
    (hno : ∀ e ∈ evs, e.isTrigger = false ∧ e.isCancel = false) :
    run lib b evs = (if taskSteps evs = 0 then b else
      { b with pc := Pc.parked, sleeps := b.sleeps + 1,
               clock := b.clock + retryReconnectionToInitialPeerListInterval }) := by
  induction evs with
  | nil => rfl
  | cons e evs ih =>
    have he := hno e (List.mem_cons_self _ _)
    have hno' : ∀ e' ∈ evs, e'.isTrigger = false ∧ e'.isCancel = false :=
      fun e' he' => hno e' (List.mem_cons_of_mem _ he')
    cases e with
    | trigger => simp [Ev.isTrigger] at he
    | cancel => simp [Ev.isCancel] at he
    | task d be =>
      rcases b with ⟨l, c, pc, dl, ps, sl, bc, pr, ck⟩
      simp only at hpc hnc
      subst hpc
      subst hnc
      have hstep : step lib ⟨l, false, Pc.sleeping, dl, ps, sl, bc, pr, ck⟩ (Ev.task d be)
          = ⟨l, false, Pc.parked, dl, ps, sl + 1, bc, pr,
              ck + retryReconnectionToInitialPeerListInterval⟩ := by
        simp [step, tryStart, selectEntry]
      rw [run_cons, hstep, run_parked lib _ evs rfl rfl hno', taskSteps_cons]
      simp [Ev.isTask]

/-- Claim C7. A pass is started with the context not cancelled and every one of its dials
fails. Then the goroutine is in `time.Sleep`, having dialed every address of the seed list
once and called `kadDHT.Bootstrap` no more than before. From there, as long as no
`bootstrap()` call is made, no address is dialed and no pass is started, whatever else
happens; and as long as no `close()` call is made either, the goroutine does not end and
does not call `kadDHT.Bootstrap`: its first step ends the sleep after 5 seconds and blocks
in the `select`, where it stays. -/
theorem C7_exhausted_pass_waits_for_trigger (lib : Lib) (answer : Nat → Dial)
    (b : bootstrapper) (hpc : b.pc = Pc.received) (hnc : b.cancelled = false)
    (hfail : ∀ j, j < b.initialPeerList.length →
      dialResult lib answer 0 b.initialPeerList j ≠ none)
    (evs : List Ev) (hno : ∀ e ∈ evs, e.isTrigger = false) :
    (afterFailedPass lib answer b).pc = Pc.sleeping
    ∧ (afterFailedPass lib answer b).dialed = b.dialed ++ b.initialPeerList
    ∧ (afterFailedPass lib answer b).passes = b.passes + 1
    ∧ (afterFailedPass lib answer b).bootstrapCalls = b.bootstrapCalls
    ∧ (run lib (afterFailedPass lib answer b) evs).dialed = b.dialed ++ b.initialPeerList
    ∧ (run lib (afterFailedPass lib answer b) evs).passes = b.passes + 1
    ∧ ((∀ e ∈ evs, e.isCancel = false) →
        (run lib (afterFailedPass lib answer b) evs).pc
          = (if taskSteps evs = 0 then Pc.sleeping else Pc.parked)
        ∧ (run lib (afterFailedPass lib answer b) evs).bootstrapCalls = b.bootstrapCalls
        ∧ (run lib (afterFailedPass lib answer b) evs).sleeps
          = b.sleeps + (if taskSteps evs = 0 then 0 else 1)
        ∧ (run lib (afterFailedPass lib answer b) evs).clock
          = (afterFailedPass lib answer b).clock
            + (if taskSteps evs = 0 then 0 else 5 * second)) := by
  have hall := pass_all_fail lib answer 0 b.initialPeerList hfail
  have href := tryStart_pass_refines lib answer b (answer 0) none hpc
  rw [hall.1] at href
  have hs : afterFailedPass lib answer b
      = { b with
          pc := Pc.sleeping
          passes := b.passes + 1
          dialed := b.dialed ++ b.initialPeerList
          printed := b.printed
            ++ (connectToInitialPeerList lib answer 0 b.initialPeerList).printed
          clock := b.clock
            + (connectToInitialPeerList lib answer 0 b.initialPeerList).elapsed } := by
    rw [afterFailedPass, href, hall.2]
    simp
  have hidle : Idle (afterFailedPass lib answer b) := by rw [hs]; exact Or.inl rfl
  have hq := run_idle lib _ evs hidle hno
  have hd : (afterFailedPass lib answer b).dialed = b.dialed ++ b.initialPeerList := by
    rw [hs]
  have hp : (afterFailedPass lib answer b).passes = b.passes + 1 := by rw [hs]
  refine ⟨by rw [hs], hd, hp, by rw [hs], hq.1.trans hd, hq.2.trans hp, ?_⟩
  intro hnoc
  have hsl := run_sleeping lib (afterFailedPass lib answer b) evs (by rw [hs])
    (by rw [hs]; exact hnc) (fun e he => ⟨hno e he, hnoc e he⟩)
  have hri : retryReconnectionToInitialPeerListInterval = 5 * second := by decide
  rw [hsl, hri]
  by_cases hz : taskSteps evs = 0
  · simp [hz, hs]
  · simp [hz, hs]

/-- Claim C7 at a concrete execution: a pass over three addresses that all refuse, followed
by two steps of the goroutine and no call from outside. -/
theorem C7_exhausted_pass_waits_for_trigger_witness :
    startReceived.pc = Pc.received ∧ startReceived.cancelled = false
    ∧ (afterFailedPass sampleLib allRefused startReceived).pc = Pc.sleeping
    ∧ (run sampleLib (afterFailedPass sampleLib allRefused startReceived) twoSteps).dialed
        = threeSeeds
    ∧ (run sampleLib (afterFailedPass sampleLib allRefused startReceived) twoSteps).pc
        = Pc.parked
    ∧ (run sampleLib (afterFailedPass sampleLib allRefused startReceived)
        twoSteps).bootstrapCalls = 0 :=
  have h := C7_exhausted_pass_waits_for_trigger sampleLib allRefused startReceived rfl rfl
    (by decide) twoSteps (by decide)
  ⟨rfl, rfl, h.1, h.2.2.2.2.1, (h.2.2.2.2.2.2 (by decide)).1, (h.2.2.2.2.2.2 (by decide)).2.1⟩

/-- Claim C1 at concrete inputs: over three addresses of which the second accepts, the pass
dials the first two and returns `nil`; over three that all refuse, it dials all three and
returns its error. -/
theorem C1_pass_dials_up_to_first_success_witness :
    ((connectToInitialPeerList sampleLib secondAccepts 0 threeSeeds).dialed
        = ["/ip4/10.0.0.1/tcp/1/p2p/A", "/ip4/10.0.0.2/tcp/1/p2p/B"]
      ∧ (connectToInitialPeerList sampleLib secondAccepts 0 threeSeeds).err = none)
    ∧ ((connectToInitialPeerList sampleLib allRefused 0 threeSeeds).dialed = threeSeeds
      ∧ (connectToInitialPeerList sampleLib allRefused 0 threeSeeds).err
        = some errUnableToConnect) :=
  ⟨(C1_pass_dials_up_to_first_success sampleLib secondAccepts threeSeeds).1 1 (by decide)
      (by decide) (by decide),
   (C1_pass_dials_up_to_first_success sampleLib allRefused threeSeeds).2 (by decide)⟩

/-- Claim C6, amended, at a concrete execution: `close()` during the first of three dials
that nobody answers; the goroutine ends within six steps, eleven seconds later. -/
theorem C6_cancel_latency_bounded_by_pass_witness :
    threeSeeds.length + 3 ≤ taskSteps silentSteps
    ∧ (run sampleLib (close (run sampleLib (initial threeSeeds)
        [Ev.task dialSilent none, Ev.trigger, Ev.task dialSilent none])) silentSteps).pc
      = Pc.ended
    ∧ (run sampleLib (close (run sampleLib (initial threeSeeds)
        [Ev.task dialSilent none, Ev.trigger, Ev.task dialSilent none])) silentSteps).clock
      ≤ (run sampleLib (initial threeSeeds)
          [Ev.task dialSilent none, Ev.trigger, Ev.task dialSilent none]).clock
        + threeSeeds.length * (2 * second) + 5 * second :=
  have h := C6_cancel_latency_bounded_by_pass sampleLib threeSeeds
    [Ev.task dialSilent none, Ev.trigger, Ev.task dialSilent none] silentSteps
  ⟨by decide, h.2.2.2.1 (by decide), h.2.2.1⟩

end p2p
